import Mathlib

/-!
Shallow embedding of the rate-limited, retrying Auth0 export core
(`src/auth0_export/exporter.py`) and proofs of its specified properties.

Time durations and instants are modelled as rationals (seconds).
The opaque remote call of `_retry_with_backoff` is modelled as a script
mapping the 0-based attempt index to that attempt's outcome; the random
jitter `random.uniform(0, 1)` is a parameter giving the jitter drawn at
each attempt.
-/

namespace Auth0Export

/-- `leadsList pat l` holds when `pat` occurs at the head of `l`. -/
def leadsList : List Char → List Char → Bool
  | [], _ => true
  | _ :: _, [] => false
  | a :: as, b :: bs => a == b && leadsList as bs

/-- `occursIn pat l` holds when `pat` occurs contiguously somewhere in `l`. -/
def occursIn (pat : List Char) : List Char → Bool
  | [] => pat.isEmpty
  | c :: rest => leadsList pat (c :: rest) || occursIn pat rest

/-- Substring test, modelling Python `pat in s`. -/
def strContains (s pat : String) : Bool :=
  occursIn pat.toList s.toList

/-- ASCII lower-casing of one character, modelling `str.lower()` on the
ASCII error messages the classifier inspects. -/
def charLower (c : Char) : Char :=
  if 65 ≤ c.toNat && c.toNat ≤ 90 then Char.ofNat (c.toNat + 32) else c

/-- Error classification of `_retry_with_backoff` (exporter.py line 102):
`'429' in error_msg or 'rate limit' in error_msg.lower()`. -/
def isRateLimitError (msg : String) : Bool :=
  strContains msg "429" || occursIn "rate limit".toList (msg.toList.map charLower)

/-- Python `int(s)` on a decimal string: `some n` on success, `none` when a
`ValueError` is raised (empty string, sign only, or any non-digit). -/
def digitsToNat (cs : List Char) : Option ℕ :=
  match cs with
  | [] => none
  | _ =>
    if cs.all Char.isDigit then
      some (cs.foldl (fun a c => a * 10 + (c.toNat - 48)) 0)
    else none

/-- Python `int(s)` with optional sign. -/
def pyInt (s : String) : Option ℤ :=
  match s.toList with
  | [] => none
  | c :: rest =>
    if c = '-' then (digitsToNat rest).map (fun n => -(n : ℤ))
    else if c = '+' then (digitsToNat rest).map (fun n => (n : ℤ))
    else (digitsToNat (c :: rest)).map (fun n => (n : ℤ))

/-- Throttle state of the client: `last_request_time` and
`min_time_between_requests` (exporter.py lines 45-46). -/
structure ThrottleState where
  lastRequestTime : ℚ
  minInterval : ℚ
deriving Repr, DecidableEq

/-- `self.min_time_between_requests = min(self.min_time_between_requests * 1.5, 2.0)`
(exporter.py line 113). -/
def widenInterval (mi : ℚ) : ℚ :=
  min (mi * (3 / 2)) 2

/-- `_rate_limit_wait` (exporter.py lines 56-66).  `now` is the value of the
first `time.time()` read; `drift` is the extra wall-clock time that elapses
between the end of the (possibly zero-length) sleep and the second
`time.time()` read.  Returns the new throttle state and the new clock value. -/
def rateLimitWait (st : ThrottleState) (now drift : ℚ) : ThrottleState × ℚ :=
  let timeSince := now - st.lastRequestTime
  if timeSince < st.minInterval then
    let sleepTime := st.minInterval - timeSince
    let t2 := now + sleepTime + drift
    ({ st with lastRequestTime := t2 }, t2)
  else
    let t2 := now + drift
    ({ st with lastRequestTime := t2 }, t2)

/-- Backoff delay `2 ** attempt + random.uniform(0, 1)`
(exporter.py lines 104-106 and line 121). -/
def backoffDelay (attempt : ℕ) (jitter : ℚ) : ℚ :=
  2 ^ attempt + jitter

/-- Outcome of one invocation of the opaque wrapped remote call.
`returns v headers`: the call returns value `v`; `headers = none` models a
result without a `.headers` attribute, `headers = some h` a result whose
headers dictionary yields `h` for `get('X-RateLimit-Remaining')`. -/
inductive PyAttempt (V : Type) where
  | raises (msg : String)
  | returns (value : V) (headers : Option (Option String))
deriving Repr, DecidableEq

/-- Observable side effects of `_retry_with_backoff`. -/
inductive Effect where
  | throttleWait
  | invoke
  | quotaSleep (d : ℚ)
  | backoffSleep (d : ℚ)
  | widen
deriving Repr, DecidableEq

/-- The rate-limit-header inspection on the success path
(exporter.py lines 89-94), which runs inside the `try` block:
`remaining = result.headers.get('X-RateLimit-Remaining')` followed by
`if remaining and int(remaining) < 5: ... time.sleep(1)`.
Returns the extra effects on success, or the message of the raised
exception when `int(remaining)` fails. -/
def headerCheck (headers : Option (Option String)) : Except String (List Effect) :=
  match headers with
  | none => .ok []
  | some none => .ok []
  | some (some s) =>
    if s = "" then .ok []
    else
      match pyInt s with
      | none => .error ("invalid literal for int() with base 10: " ++ s)
      | some n => if n < 5 then .ok [Effect.quotaSleep 1] else .ok []

/-- The body of one attempt after the remote call is invoked: either the
value together with the success-path extra effects, or the message of the
exception reaching the `except` handler. -/
def attemptResult {V : Type} (script : ℕ → PyAttempt V) (attempt : ℕ) :
    Except String (V × List Effect) :=
  match script attempt with
  | .raises e => .error e
  | .returns v headers => (headerCheck headers).map (fun extra => (v, extra))

/-- The retry loop of `_retry_with_backoff` (exporter.py lines 80-126),
starting at attempt index `attempt` with `fuel` loop iterations remaining
and current minimum interval `mi`.  Returns the effect trace, the final
minimum interval, and the outcome. -/
def retryFrom {V : Type} (script : ℕ → PyAttempt V) (jitter : ℕ → ℚ)
    (maxRetries : ℕ) : ℕ → ℕ → ℚ → List Effect × ℚ × Except String V
  | _, 0, mi =>
    ([], mi, .error ("Failed after " ++ toString maxRetries ++ " attempts"))
  | attempt, fuel + 1, mi =>
    match attemptResult script attempt with
    | .ok (v, extra) => (Effect.throttleWait :: Effect.invoke :: extra, mi, .ok v)
    | .error e =>
      if isRateLimitError e then
        let d := backoffDelay attempt (jitter attempt)
        let r := retryFrom script jitter maxRetries (attempt + 1) fuel (widenInterval mi)
        (Effect.throttleWait :: Effect.invoke :: Effect.backoffSleep d ::
          Effect.widen :: r.1, r.2.1, r.2.2)
      else if attempt = maxRetries - 1 then
        ([Effect.throttleWait, Effect.invoke], mi, .error e)
      else
        let d := backoffDelay attempt (jitter attempt)
        let r := retryFrom script jitter maxRetries (attempt + 1) fuel mi
        (Effect.throttleWait :: Effect.invoke :: Effect.backoffSleep d :: r.1,
          r.2.1, r.2.2)

/-- `_retry_with_backoff(func, *args, max_retries=maxRetries)`: run the loop
`for attempt in range(max_retries)` from attempt 0. -/
def retryWithBackoff {V : Type} (script : ℕ → PyAttempt V) (jitter : ℕ → ℚ)
    (maxRetries : ℕ) (mi : ℚ) : List Effect × ℚ × Except String V :=
  retryFrom script jitter maxRetries 0 maxRetries mi

def isInvoke : Effect → Bool
  | .invoke => true
  | _ => false

def isBackoffSleep : Effect → Bool
  | .backoffSleep _ => true
  | _ => false

def isWiden : Effect → Bool
  | .widen => true
  | _ => false

def countInvokes (l : List Effect) : ℕ := (l.filter isInvoke).length

def countBackoffSleeps (l : List Effect) : ℕ := (l.filter isBackoffSleep).length

def countWidens (l : List Effect) : ℕ := (l.filter isWiden).length

/-! ### Throttle runs (sequences of `_rate_limit_wait` calls and widenings) -/

/-- One event acting on the throttle state.  A `wait d1 d2` event is a call
to `_rate_limit_wait`: `d1 ≥ 0` is the wall-clock time elapsed between the
previous event and this call's first `time.time()` read, `d2 ≥ 0` the time
elapsed between the end of the sleep and the second `time.time()` read.
A `widen` event is the `min_time_between_requests` update of the
rate-limit branch (exporter.py line 113). -/
inductive ThrottleEvent where
  | wait (d1 d2 : ℚ)
  | widen
deriving Repr, DecidableEq

/-- Run a sequence of throttle events from state `st` at clock value
`clock`; return the final state and clock, and the list of
(recorded request time, minimum interval in force at that call) pairs,
one per `wait` event, in order. -/
def throttleRun : ThrottleState × ℚ → List ThrottleEvent → (ThrottleState × ℚ) × List (ℚ × ℚ)
  | s, [] => (s, [])
  | (st, clock), ThrottleEvent.wait d1 d2 :: rest =>
    let p := rateLimitWait st (clock + d1) d2
    let r := throttleRun (p.1, p.2) rest
    (r.1, (p.1.lastRequestTime, st.minInterval) :: r.2)
  | (st, clock), ThrottleEvent.widen :: rest =>
    throttleRun ({ st with minInterval := widenInterval st.minInterval }, clock) rest

/-- `gapsOk prev recs`: every consecutive pair of recorded request times in
`recs` (starting from `prev`) is separated by at least the minimum interval
in force at the second call of the pair. -/
def gapsOk : ℚ → List (ℚ × ℚ) → Prop
  | _, [] => True
  | prev, (t, m) :: rest => m ≤ t - prev ∧ gapsOk t rest

/-- All drifts appearing in a list of throttle events are nonnegative. -/
def driftsNonneg (events : List ThrottleEvent) : Prop :=
  ∀ d1 d2, ThrottleEvent.wait d1 d2 ∈ events → 0 ≤ d1 ∧ 0 ≤ d2

/-! ### Paginators -/

/-- Outcome of one page fetch of
`organizations.all_organization_member_roles` as seen by
`get_user_organization_roles` (after the retry layer): an escaping
exception, a response that is not a dict carrying a `'roles'` key, or a
dict with a `'roles'` list. -/
inductive OrgRolesPage (R : Type) where
  | raises (msg : String)
  | noRoles
  | page (roles : List R)
deriving Repr, DecidableEq

/-- The `while True` pagination loop of `get_user_organization_roles`
(exporter.py lines 243-259) together with its surrounding
`try ... except: return []`.  `fetch` maps the page index to that page's
outcome; `fuel` bounds the number of iterations (the source loop has no
bound; `none` means the loop did not finish within `fuel` iterations).
Returns the role list the function returns and the number of page
fetches performed. -/
def orgRolesLoop {R : Type} (fetch : ℕ → OrgRolesPage R) :
    ℕ → ℕ → List R → ℕ → Option (List R × ℕ)
  | 0, _, _, _ => none
  | fuel + 1, page, acc, cnt =>
    match fetch page with
    | .raises _ => some ([], cnt + 1)
    | .noRoles => some (acc, cnt + 1)
    | .page roles =>
      if roles.length < 50 then some (acc ++ roles, cnt + 1)
      else orgRolesLoop fetch fuel (page + 1) (acc ++ roles) (cnt + 1)

/-- `get_user_organization_roles`, starting at page 0 with no roles
accumulated. -/
def getUserOrganizationRoles {R : Type} (fetch : ℕ → OrgRolesPage R) (fuel : ℕ) :
    Option (List R × ℕ) :=
  orgRolesLoop fetch fuel 0 [] 0

/-- Outcome of one page fetch of `users.list` as seen by `get_all_users`:
an escaping exception, or a batch whose `'users'` list is `us` (a missing
`'users'` key and an empty list are both falsy in
`if not batch.get('users')`, so both are modelled by `[]`). -/
inductive UsersPage (U : Type) where
  | raises (msg : String)
  | page (us : List U)
deriving Repr, DecidableEq

/-- The `while True` loop of `get_all_users` (exporter.py lines 205-219):
the `try ... except` is inside the loop, so an exception breaks out of the
loop and the accumulated users are returned. -/
def allUsersLoop {U : Type} (fetch : ℕ → UsersPage U) :
    ℕ → ℕ → List U → ℕ → Option (List U × ℕ)
  | 0, _, _, _ => none
  | fuel + 1, page, acc, cnt =>
    match fetch page with
    | .raises _ => some (acc, cnt + 1)
    | .page us =>
      if us.isEmpty then some (acc, cnt + 1)
      else allUsersLoop fetch fuel (page + 1) (acc ++ us) (cnt + 1)

/-- `get_all_users`, starting at page 0 with no users accumulated. -/
def getAllUsers {U : Type} (fetch : ℕ → UsersPage U) (fuel : ℕ) :
    Option (List U × ℕ) :=
  allUsersLoop fetch fuel 0 [] 0

/-- Concatenation, in server order, of the page contents `b j, ..., b (j+k-1)`. -/
def pagesConcat {U : Type} (b : ℕ → List U) : ℕ → ℕ → List U
  | _, 0 => []
  | j, k + 1 => b j ++ pagesConcat b (j + 1) k

/-! ### Record aggregation (`get_user_complete_data`) -/

/-- Shape of the `list_organizations` response as consumed by
`get_user_organizations` (exporter.py line 232):
`response.get('organizations', []) if isinstance(response, dict) else response`.
`dictWith orgs` is a dict whose `'organizations'` key yields `orgs` (a
missing key defaults to `[]`); `raw orgs` is a non-dict response that is
itself the list. -/
inductive ListResponse (A : Type) where
  | dictWith (items : List A)
  | raw (items : List A)
deriving Repr, DecidableEq

/-- `get_user_organizations` (exporter.py lines 224-237): the remote call
either raises (`.error`) or returns a response; any exception yields `[]`. -/
def getUserOrganizations {O : Type} (call : Except String (ListResponse O)) : List O :=
  match call with
  | .error _ => []
  | .ok (.dictWith orgs) => orgs
  | .ok (.raw orgs) => orgs

/-- `get_user_roles` (exporter.py lines 264-276), same shape with a
`'roles'` key: any exception yields `[]`. -/
def getUserRoles {R : Type} (call : Except String (ListResponse R)) : List R :=
  match call with
  | .error _ => []
  | .ok (.dictWith roles) => roles
  | .ok (.raw roles) => roles

/-- The Composite Export Record built by `get_user_complete_data`
(exporter.py lines 184-194): user, global roles, per-organization data and
the metadata counts. -/
structure CompleteData (U O R : Type) where
  user : U
  global_roles : List R
  organizations : List (O × List R)
  export_timestamp : String
  total_organizations : ℕ
  total_global_roles : ℕ
  total_org_roles : ℕ
deriving Repr, DecidableEq

/-- `get_user_complete_data` (exporter.py lines 163-196).  `orgsCall` and
`globalCall` are the outcomes of the two wrapped remote calls; `orgRoles`
is the (total, exception-free) result of `get_user_organization_roles` for
each organization; `ts` the timestamp taken at aggregation time. -/
def getUserCompleteData {U O R : Type} (user : U)
    (orgsCall : Except String (ListResponse O))
    (globalCall : Except String (ListResponse R))
    (orgRoles : O → List R) (ts : String) : CompleteData U O R :=
  let orgs := getUserOrganizations orgsCall
  let g := getUserRoles globalCall
  let orgData := orgs.map (fun o => (o, orgRoles o))
  { user := user
    global_roles := g
    organizations := orgData
    export_timestamp := ts
    total_organizations := orgs.length
    total_global_roles := g.length
    total_org_roles := (orgData.map (fun p => p.2.length)).sum }

/-! ### Tabular (Excel) row construction (`export_to_excel`) -/

/-- An organization record as used by the export rows: `id`, `name` and
`display_name` fields. -/
structure OrgRecord where
  id : Option String
  name : Option String
  display_name : Option String
deriving Repr, DecidableEq

/-- The four organization-specific columns set on each per-organization
row copy (exporter.py lines 352-358 and 363-366). -/
def orgColumnNames : List String :=
  ["Organization ID", "Organization Name", "Organization Display Name",
   "Organization Roles"]

/-- `', '.join(names)` over role names. -/
def joinNames (names : List String) : String :=
  String.intercalate ", " names

/-- One export row: a row is the per-user column dictionary, modelled as an
association list from column name to cell value (`none` = null cell). -/
def rowForOrg (userData : List (String × Option String)) (org : OrgRecord)
    (roleNames : List String) : List (String × Option String) :=
  userData ++
    [("Organization ID", org.id),
     ("Organization Name", org.name),
     ("Organization Display Name", org.display_name),
     ("Organization Roles", some (joinNames roleNames))]

/-- The rows emitted for one user by `export_to_excel`
(exporter.py lines 348-367): one row per organization the user belongs to
(a copy of `user_data` with the four organization columns set), or a
single row with the organization columns null when the user has no
organizations. -/
def excelRowsForUser (userData : List (String × Option String))
    (orgs : List OrgRecord) (orgRoleNames : OrgRecord → List String) :
    List (List (String × Option String)) :=
  if orgs.isEmpty then
    [userData ++
      [("Organization ID", none), ("Organization Name", none),
       ("Organization Display Name", none), ("Organization Roles", none)]]
  else
    orgs.map (fun org => rowForOrg userData org (orgRoleNames org))

/-- A row with the organization-specific columns removed. -/
def nonOrgColumns (row : List (String × Option String)) : List (String × Option String) :=
  row.filter (fun p => !(orgColumnNames.contains p.1))

/-- One executor call: a script for the wrapped remote call, the jitter
draws, and the `max_retries` bound. -/
def ExecCall (V : Type) : Type :=
  (ℕ → PyAttempt V) × (ℕ → ℚ) × ℕ

/-- The minimum interval after a sequence of executor calls, threading the
throttle state through the whole run. -/
def runCallsMinInterval {V : Type} (calls : List (ExecCall V)) (mi : ℚ) : ℚ :=
  calls.foldl (fun m c => (retryWithBackoff c.1 c.2.1 c.2.2 m).2.1) mi

end Auth0Export

example : Auth0Export.isRateLimitError "boom" = false := by decide

example : Auth0Export.isRateLimitError "HTTP 429 too many" = true := by decide

example : Auth0Export.isRateLimitError "Rate Limit exceeded" = true := by decide

example : Auth0Export.pyInt "abc" = none := by decide

example : Auth0Export.pyInt "3" = some 3 := by decide

example : Auth0Export.pyInt "-12" = some (-12) := by decide

example : Auth0Export.pyInt "" = none := by decide

namespace Auth0Export

/-! ### Helper lemmas -/

/-- The success-path header inspection can only add the one-second
near-quota precaution sleep. -/
theorem headerCheck_ok_cases {h : Option (Option String)} {l : List Effect}
    (hh : headerCheck h = .ok l) : l = [] ∨ l = [Effect.quotaSleep 1] := by
  rcases h with _ | h2
  · simp [headerCheck] at hh; simp_all
  rcases h2 with _ | s
  · simp [headerCheck] at hh; simp_all
  · simp only [headerCheck] at hh
    split at hh
    · simp at hh; simp_all
    · split at hh
      · simp at hh
      · split at hh <;> simp at hh <;> simp_all

/-- A successful attempt contributes no backoff sleep, no widening and no
invocation beyond its own. -/
theorem attemptResult_ok_effects {V : Type} {script : ℕ → PyAttempt V} {a : ℕ}
    {v : V} {l : List Effect} (hres : attemptResult script a = .ok (v, l)) :
    l = [] ∨ l = [Effect.quotaSleep 1] := by
  match hs : script a with
  | .raises e => simp [attemptResult, hs] at hres
  | .returns v' h =>
    simp only [attemptResult, hs] at hres
    cases hh : headerCheck h with
    | error e => rw [hh] at hres; simp [Except.map] at hres
    | ok l' =>
      rw [hh] at hres
      simp [Except.map] at hres
      exact hres.2 ▸ headerCheck_ok_cases hh

/-- Every backoff sleep in an executor trace is the backoff delay of some
attempt index with that attempt's jitter draw. -/
theorem backoffSleep_mem_retryFrom {V : Type} (script : ℕ → PyAttempt V)
    (jitter : ℕ → ℚ) (maxR : ℕ) :
    ∀ fuel attempt mi d,
      Effect.backoffSleep d ∈ (retryFrom script jitter maxR attempt fuel mi).1 →
      ∃ a, d = backoffDelay a (jitter a) := by
  intro fuel
  induction fuel with
  | zero => intro attempt mi d hmem; simp [retryFrom] at hmem
  | succ n ih =>
    intro attempt mi d hmem
    rw [retryFrom] at hmem
    cases hres : attemptResult script attempt with
    | ok p =>
      obtain ⟨v, l⟩ := p
      rw [hres] at hmem
      rcases attemptResult_ok_effects hres with h | h <;> simp [h] at hmem
    | error e =>
      rw [hres] at hmem
      by_cases hrl : isRateLimitError e
      · simp only [hrl, if_true] at hmem
        simp at hmem
        rcases hmem with h | h
        · exact ⟨attempt, h⟩
        · exact ih (attempt + 1) (widenInterval mi) d h
      · simp only [hrl, if_false] at hmem
        by_cases hlast : attempt = maxR - 1
        · simp [hlast] at hmem
        · simp only [hlast, if_false] at hmem
          simp at hmem
          rcases hmem with h | h
          · exact ⟨attempt, h⟩
          · exact ih (attempt + 1) mi d h

end Auth0Export

namespace Auth0Export

/-- C5: for every attempt index `n` and every jitter value `j` the random
source `random.uniform(0, 1)` can produce (`0 ≤ j < 1`), the backoff delay
`2 ^ n + j` lies in the half-open interval `[2 ^ n, 2 ^ n + 1)`; moreover,
in any executor run whose jitter draws all lie in `[0, 1)`, every backoff
sleep in the trace lies in `[2 ^ a, 2 ^ a + 1)` for its attempt index `a`. -/
theorem backoff_delay_in_range (n : ℕ) (j : ℚ) (h0 : 0 ≤ j) (h1 : j < 1) :
    ((2 : ℚ) ^ n ≤ backoffDelay n j ∧ backoffDelay n j < 2 ^ n + 1) ∧
    ∀ (V : Type) (script : ℕ → PyAttempt V) (jitter : ℕ → ℚ),
      (∀ a, 0 ≤ jitter a ∧ jitter a < 1) →
      ∀ maxR mi d, Effect.backoffSleep d ∈ (retryWithBackoff script jitter maxR mi).1 →
        ∃ a, (2 : ℚ) ^ a ≤ d ∧ d < 2 ^ a + 1 := by
  constructor
  · unfold backoffDelay
    constructor <;> linarith
  · intro V script jitter hj maxR mi d hmem
    obtain ⟨a, ha⟩ := backoffSleep_mem_retryFrom script jitter maxR maxR 0 mi d hmem
    refine ⟨a, ?_, ?_⟩ <;> rw [ha] <;> unfold backoffDelay <;>
      rcases hj a with ⟨hja, hjb⟩ <;> linarith

theorem backoff_delay_in_range_witness :
    (0 ≤ (1 / 2 : ℚ) ∧ (1 / 2 : ℚ) < 1) ∧
    (((2 : ℚ) ^ 3 ≤ backoffDelay 3 (1 / 2) ∧ backoffDelay 3 (1 / 2) < 2 ^ 3 + 1) ∧
     ∀ (V : Type) (script : ℕ → PyAttempt V) (jitter : ℕ → ℚ),
       (∀ a, 0 ≤ jitter a ∧ jitter a < 1) →
       ∀ maxR mi d, Effect.backoffSleep d ∈ (retryWithBackoff script jitter maxR mi).1 →
         ∃ a, (2 : ℚ) ^ a ≤ d ∧ d < 2 ^ a + 1) :=
  ⟨⟨by norm_num, by norm_num⟩,
   backoff_delay_in_range 3 (1 / 2) (by norm_num) (by norm_num)⟩

set_option maxRecDepth 20000 in
/-- C7: the sub-resource role paginator, given server pages of sizes
[50, 50, 30] (fixed page size 50), returns exactly the 130 items in server
order having performed exactly 3 page fetches; the top-level user paginator,
given pages of sizes [100, 100, 0], returns the 200 items in order and
stops at the empty page after 3 fetches. -/
theorem paginator_termination_and_concat :
    getUserOrganizationRoles
      (fun p => if p < 2 then OrgRolesPage.page ((List.range 50).map (fun i => 50 * p + i))
        else OrgRolesPage.page ((List.range 30).map (fun i => 100 + i))) 10
      = some (List.range 130, 3) ∧
    getAllUsers
      (fun p => if p < 2 then UsersPage.page ((List.range 100).map (fun i => 100 * p + i))
        else UsersPage.page ([] : List ℕ)) 10
      = some (List.range 200, 3) := by
  constructor <;> rfl

/-- C10: when the wrapped call returns successfully but the
`X-RateLimit-Remaining` header is a non-empty non-numeric string, the
`int(remaining)` conversion raises inside the `try` block, the successful
result is discarded, and the next attempt invokes the remote call again:
the executor returns the second attempt's value, invokes the call twice,
and performs one backoff sleep in between. -/
theorem executor_reinvokes_after_header_parse_failure {V : Type} (v1 v2 : V)
    (jitter : ℕ → ℚ) (mi : ℚ) :
    (retryWithBackoff
        (fun i => if i = 0 then PyAttempt.returns v1 (some (some "abc"))
          else PyAttempt.returns v2 none) jitter 5 mi).2.2 = Except.ok v2 ∧
    countInvokes (retryWithBackoff
        (fun i => if i = 0 then PyAttempt.returns v1 (some (some "abc"))
          else PyAttempt.returns v2 none) jitter 5 mi).1 = 2 ∧
    countBackoffSleeps (retryWithBackoff
        (fun i => if i = 0 then PyAttempt.returns v1 (some (some "abc"))
          else PyAttempt.returns v2 none) jitter 5 mi).1 = 1 := by
  have hp : pyInt "abc" = none := by decide
  have hcl : isRateLimitError "invalid literal for int() with base 10: abc" = false := by
    decide
  have hne : ¬("abc" = "") := by decide
  refine ⟨?_, ?_, ?_⟩ <;>
    simp [retryWithBackoff, retryFrom, attemptResult, headerCheck, hp, hcl, hne,
      Except.map, countInvokes, countBackoffSleeps, List.filter, isInvoke, isBackoffSleep]

/-- C1: with default `max_retries = 5`, a call whose wrapped remote call
raises a generic (non-rate-limit) error on every attempt re-raises exactly
the final underlying error, invokes the remote call exactly 5 times, and
performs exactly 4 backoff sleeps (none after the last attempt). -/
theorem executor_generic_exhaustion {V : Type} (script : ℕ → PyAttempt V)
    (jitter : ℕ → ℚ) (msg : ℕ → String) (mi : ℚ)
    (hs : ∀ i, i < 5 → script i = PyAttempt.raises (msg i))
    (hg : ∀ i, i < 5 → isRateLimitError (msg i) = false) :
    (retryWithBackoff script jitter 5 mi).2.2 = Except.error (msg 4) ∧
    countInvokes (retryWithBackoff script jitter 5 mi).1 = 5 ∧
    countBackoffSleeps (retryWithBackoff script jitter 5 mi).1 = 4 := by
  have h0 := hs 0 (by norm_num)
  have h1 := hs 1 (by norm_num)
  have h2 := hs 2 (by norm_num)
  have h3 := hs 3 (by norm_num)
  have h4 := hs 4 (by norm_num)
  have g0 := hg 0 (by norm_num)
  have g1 := hg 1 (by norm_num)
  have g2 := hg 2 (by norm_num)
  have g3 := hg 3 (by norm_num)
  have g4 := hg 4 (by norm_num)
  refine ⟨?_, ?_, ?_⟩ <;>
    simp [retryWithBackoff, retryFrom, attemptResult, h0, h1, h2, h3, h4,
      g0, g1, g2, g3, g4, countInvokes, countBackoffSleeps, List.filter,
      isInvoke, isBackoffSleep]

theorem executor_generic_exhaustion_witness :
    ((∀ i, i < 5 → (fun _ => PyAttempt.raises (V := ℕ) "boom") i
        = PyAttempt.raises ((fun _ => "boom") i)) ∧
     (∀ i, i < 5 → isRateLimitError ((fun _ => "boom") i) = false)) ∧
    ((retryWithBackoff (fun _ => PyAttempt.raises (V := ℕ) "boom") (fun _ => 0) 5
        (1 / 2)).2.2 = Except.error ((fun _ => "boom") 4) ∧
     countInvokes (retryWithBackoff (fun _ => PyAttempt.raises (V := ℕ) "boom")
        (fun _ => 0) 5 (1 / 2)).1 = 5 ∧
     countBackoffSleeps (retryWithBackoff (fun _ => PyAttempt.raises (V := ℕ) "boom")
        (fun _ => 0) 5 (1 / 2)).1 = 4) :=
  ⟨⟨fun _ _ => rfl, fun _ _ => (by decide : isRateLimitError "boom" = false)⟩,
   executor_generic_exhaustion (fun _ => PyAttempt.raises "boom") (fun _ => 0)
     (fun _ => "boom") (1 / 2) (fun _ _ => rfl)
     (fun _ _ => (by decide : isRateLimitError "boom" = false))⟩

/-- C2: with `max_retries = 5`, a call whose wrapped remote call raises a
rate-limit-classified error on attempts 0-3 and returns successfully on
attempt 4 returns that success result, performs exactly 4 backoff sleeps,
and widens the throttle's minimum interval (multiply by 1.5, clamped to
2.0) exactly once per rate-limit hit, i.e. 4 times. -/
theorem executor_rateLimit_recovery {V : Type} (script : ℕ → PyAttempt V)
    (jitter : ℕ → ℚ) (msg : ℕ → String) (v : V) (hdrs : Option (Option String))
    (extra : List Effect) (mi : ℚ)
    (hs : ∀ i, i < 4 → script i = PyAttempt.raises (msg i))
    (hr : ∀ i, i < 4 → isRateLimitError (msg i) = true)
    (h4 : script 4 = PyAttempt.returns v hdrs)
    (hh : headerCheck hdrs = Except.ok extra) :
    (retryWithBackoff script jitter 5 mi).2.2 = Except.ok v ∧
    countBackoffSleeps (retryWithBackoff script jitter 5 mi).1 = 4 ∧
    countWidens (retryWithBackoff script jitter 5 mi).1 = 4 ∧
    (retryWithBackoff script jitter 5 mi).2.1
      = widenInterval (widenInterval (widenInterval (widenInterval mi))) := by
  have h0 := hs 0 (by norm_num)
  have h1 := hs 1 (by norm_num)
  have h2 := hs 2 (by norm_num)
  have h3 := hs 3 (by norm_num)
  have r0 := hr 0 (by norm_num)
  have r1 := hr 1 (by norm_num)
  have r2 := hr 2 (by norm_num)
  have r3 := hr 3 (by norm_num)
  have ha4 : attemptResult script 4 = Except.ok (v, extra) := by
    simp [attemptResult, h4, hh, Except.map]
  rcases headerCheck_ok_cases hh with he | he <;> subst he <;>
    refine ⟨?_, ?_, ?_, ?_⟩ <;>
      simp [retryWithBackoff, retryFrom, attemptResult, h0, h1, h2, h3,
        r0, r1, r2, r3, h4, hh, Except.map, countBackoffSleeps, countWidens,
        List.filter, isBackoffSleep, isWiden]

theorem executor_rateLimit_recovery_witness :
    ((∀ i, i < 4 → (fun j => if j < 4 then PyAttempt.raises (V := ℕ) "429"
        else PyAttempt.returns 7 none) i = PyAttempt.raises ((fun _ => "429") i)) ∧
     (∀ i, i < 4 → isRateLimitError ((fun _ => "429") i) = true) ∧
     (fun j => if j < 4 then PyAttempt.raises (V := ℕ) "429"
        else PyAttempt.returns 7 none) 4 = PyAttempt.returns 7 none ∧
     headerCheck none = Except.ok []) ∧
    ((retryWithBackoff (fun j => if j < 4 then PyAttempt.raises (V := ℕ) "429"
        else PyAttempt.returns 7 none) (fun _ => 0) 5 (1 / 2)).2.2 = Except.ok 7 ∧
     countBackoffSleeps (retryWithBackoff (fun j => if j < 4 then
        PyAttempt.raises (V := ℕ) "429" else PyAttempt.returns 7 none)
        (fun _ => 0) 5 (1 / 2)).1 = 4 ∧
     countWidens (retryWithBackoff (fun j => if j < 4 then
        PyAttempt.raises (V := ℕ) "429" else PyAttempt.returns 7 none)
        (fun _ => 0) 5 (1 / 2)).1 = 4 ∧
     (retryWithBackoff (fun j => if j < 4 then PyAttempt.raises (V := ℕ) "429"
        else PyAttempt.returns 7 none) (fun _ => 0) 5 (1 / 2)).2.1
       = widenInterval (widenInterval (widenInterval (widenInterval (1 / 2))))) :=
  ⟨⟨fun i hi => by simp [hi], fun _ _ => (by decide : isRateLimitError "429" = true),
     by norm_num, rfl⟩,
   executor_rateLimit_recovery _ (fun _ => 0) (fun _ => "429") 7 none [] (1 / 2)
     (fun i hi => by simp [hi]) (fun _ _ => (by decide : isRateLimitError "429" = true))
     (by norm_num) rfl⟩

end Auth0Export

namespace Auth0Export

/-- The retry loop keeps the minimum interval nonnegative, never decreases
it, and never lets it exceed the 2.0-second ceiling. -/
theorem retryFrom_minInterval_bounds {V : Type} (script : ℕ → PyAttempt V)
    (jitter : ℕ → ℚ) (maxR : ℕ) :
    ∀ fuel attempt mi, 0 ≤ mi → mi ≤ 2 →
      0 ≤ (retryFrom script jitter maxR attempt fuel mi).2.1 ∧
      mi ≤ (retryFrom script jitter maxR attempt fuel mi).2.1 ∧
      (retryFrom script jitter maxR attempt fuel mi).2.1 ≤ 2 := by
  intro fuel
  induction fuel with
  | zero =>
    intro attempt mi h0 h2
    simp only [retryFrom]
    exact ⟨h0, le_refl _, h2⟩
  | succ n ih =>
    intro attempt mi h0 h2
    rw [retryFrom]
    cases hres : attemptResult script attempt with
    | ok p =>
      obtain ⟨v, l⟩ := p
      exact ⟨h0, le_refl _, h2⟩
    | error e =>
      by_cases hrl : isRateLimitError e
      · simp only [hrl, if_true]
        have hw0 : 0 ≤ widenInterval mi := by
          unfold widenInterval
          exact le_min (by linarith) (by norm_num)
        have hw1 : mi ≤ widenInterval mi := by
          unfold widenInterval
          exact le_min (by linarith) h2
        have hw2 : widenInterval mi ≤ 2 := min_le_right _ _
        obtain ⟨a, b, c⟩ := ih (attempt + 1) (widenInterval mi) hw0 hw2
        exact ⟨a, le_trans hw1 b, c⟩
      · by_cases hlast : attempt = maxR - 1
        · simp only [hrl, hlast, if_false, if_true, Bool.false_eq_true]
          exact ⟨h0, le_refl _, h2⟩
        · simp only [hrl, hlast, if_false, Bool.false_eq_true]
          exact ih (attempt + 1) mi h0 h2

/-- If no attempt of a run raises a rate-limit-classified exception, the
run leaves the minimum interval unchanged. -/
theorem retryFrom_minInterval_generic {V : Type} (script : ℕ → PyAttempt V)
    (jitter : ℕ → ℚ) (maxR : ℕ)
    (hgen : ∀ a e, attemptResult script a = Except.error e → isRateLimitError e = false) :
    ∀ fuel attempt mi, (retryFrom script jitter maxR attempt fuel mi).2.1 = mi := by
  intro fuel
  induction fuel with
  | zero => intro attempt mi; simp only [retryFrom]
  | succ n ih =>
    intro attempt mi
    rw [retryFrom]
    cases hres : attemptResult script attempt with
    | ok p => obtain ⟨v, l⟩ := p; rfl
    | error e =>
      have := hgen attempt e hres
      simp only [this, Bool.false_eq_true, if_false]
      by_cases hlast : attempt = maxR - 1
      · simp only [hlast, if_true]
      · simp only [hlast, if_false]
        exact ih (attempt + 1) mi

/-- `_rate_limit_wait` never touches the minimum interval. -/
theorem rateLimitWait_minInterval (st : ThrottleState) (now d : ℚ) :
    ((rateLimitWait st now d).1).minInterval = st.minInterval := by
  simp only [rateLimitWait]
  split <;> rfl

/-- Bounds on the minimum interval along a whole sequence of executor
calls. -/
theorem runCalls_minInterval_bounds {V : Type} (calls : List (ExecCall V)) :
    ∀ mi, 0 ≤ mi → mi ≤ 2 →
      0 ≤ runCallsMinInterval calls mi ∧ mi ≤ runCallsMinInterval calls mi ∧
      runCallsMinInterval calls mi ≤ 2 := by
  induction calls with
  | nil =>
    intro mi h0 h2
    simp only [runCallsMinInterval, List.foldl_nil]
    exact ⟨h0, le_refl _, h2⟩
  | cons c cs ih =>
    intro mi h0 h2
    obtain ⟨a, b, d⟩ :=
      retryFrom_minInterval_bounds c.1 c.2.1 c.2.2 c.2.2 0 mi h0 h2
    obtain ⟨a2, b2, d2⟩ := ih ((retryWithBackoff c.1 c.2.1 c.2.2 mi).2.1) a d
    refine ⟨a2, le_trans ?_ b2, d2⟩
    exact b

end Auth0Export

namespace Auth0Export

/-- C3: within one run starting from minimum interval `1/rate` (rate a
positive integer), the throttle's minimum inter-request interval is
monotonically non-decreasing across every sequence of executed calls and
never exceeds the 2.0-second ceiling; `_rate_limit_wait` never changes it;
and a call whose attempts raise only generic (non-rate-limit) errors
leaves it unchanged. -/
theorem minInterval_monotone_bounded {V : Type} (rate : ℕ) (hrate : 1 ≤ rate) :
    (∀ calls : List (ExecCall V),
      1 / (rate : ℚ) ≤ runCallsMinInterval calls (1 / (rate : ℚ)) ∧
      runCallsMinInterval calls (1 / (rate : ℚ)) ≤ 2 ∧
      ∀ c, runCallsMinInterval calls (1 / (rate : ℚ))
          ≤ runCallsMinInterval (calls ++ [c]) (1 / (rate : ℚ))) ∧
    (∀ st now d, ((rateLimitWait st now d).1).minInterval = st.minInterval) ∧
    (∀ (script : ℕ → PyAttempt V) (jitter : ℕ → ℚ) (n : ℕ),
      (∀ a e, attemptResult script a = Except.error e → isRateLimitError e = false) →
      ∀ mi, (retryWithBackoff script jitter n mi).2.1 = mi) := by
  have hq : (1 : ℚ) ≤ (rate : ℚ) := by exact_mod_cast hrate
  have h0 : (0 : ℚ) ≤ 1 / (rate : ℚ) := by positivity
  have h2 : 1 / (rate : ℚ) ≤ 2 := by
    have : 1 / (rate : ℚ) ≤ 1 := by
      rw [div_le_one (by linarith)]
      exact hq
    linarith
  refine ⟨?_, rateLimitWait_minInterval, ?_⟩
  · intro calls
    obtain ⟨a, b, c⟩ := runCalls_minInterval_bounds calls (1 / (rate : ℚ)) h0 h2
    refine ⟨b, c, ?_⟩
    intro cl
    have heq : runCallsMinInterval (calls ++ [cl]) (1 / (rate : ℚ))
        = (retryWithBackoff cl.1 cl.2.1 cl.2.2
            (runCallsMinInterval calls (1 / (rate : ℚ)))).2.1 := by
      simp [runCallsMinInterval, List.foldl_append]
    rw [heq]
    exact (retryFrom_minInterval_bounds cl.1 cl.2.1 cl.2.2 cl.2.2 0
      (runCallsMinInterval calls (1 / (rate : ℚ))) a c).2.1
  · intro script jitter n hgen mi
    exact retryFrom_minInterval_generic script jitter n hgen n 0 mi

theorem minInterval_monotone_bounded_witness :
    1 ≤ 2 ∧
    ((∀ calls : List (ExecCall ℕ),
      1 / ((2 : ℕ) : ℚ) ≤ runCallsMinInterval calls (1 / ((2 : ℕ) : ℚ)) ∧
      runCallsMinInterval calls (1 / ((2 : ℕ) : ℚ)) ≤ 2 ∧
      ∀ c, runCallsMinInterval calls (1 / ((2 : ℕ) : ℚ))
          ≤ runCallsMinInterval (calls ++ [c]) (1 / ((2 : ℕ) : ℚ))) ∧
    (∀ st now d, ((rateLimitWait st now d).1).minInterval = st.minInterval) ∧
    (∀ (script : ℕ → PyAttempt ℕ) (jitter : ℕ → ℚ) (n : ℕ),
      (∀ a e, attemptResult script a = Except.error e → isRateLimitError e = false) →
      ∀ mi, (retryWithBackoff script jitter n mi).2.1 = mi)) :=
  ⟨by norm_num, minInterval_monotone_bounded 2 (by norm_num)⟩

end Auth0Export

namespace Auth0Export

/-- One `_rate_limit_wait` call separates the newly recorded request time
from the previous one by at least the minimum interval in force. -/
theorem rateLimitWait_gap (st : ThrottleState) (now d : ℚ) (hd : 0 ≤ d) :
    st.minInterval ≤ ((rateLimitWait st now d).1).lastRequestTime - st.lastRequestTime := by
  simp only [rateLimitWait]
  split_ifs with h
  · simp only
    linarith
  · simp only
    push_neg at h
    linarith

/-- `_rate_limit_wait` records the post-wait clock as the new last request
time. -/
theorem rateLimitWait_records (st : ThrottleState) (now d : ℚ) :
    ((rateLimitWait st now d).1).lastRequestTime = (rateLimitWait st now d).2 := by
  simp only [rateLimitWait]
  split_ifs <;> rfl

/-- Along any throttle run with nonnegative drifts, every consecutive pair
of recorded request times is separated by at least the minimum interval in
force at the second call. -/
theorem throttleRun_gapsOk :
    ∀ (events : List ThrottleEvent) (st : ThrottleState) (clock : ℚ),
      driftsNonneg events →
      gapsOk st.lastRequestTime (throttleRun (st, clock) events).2 := by
  intro events
  induction events with
  | nil => intro st clock _; simp [throttleRun, gapsOk]
  | cons ev rest ih =>
    intro st clock hd
    have hdrest : driftsNonneg rest := by
      intro a b hmem
      exact hd a b (List.mem_cons_of_mem _ hmem)
    cases ev with
    | widen =>
      rw [throttleRun]
      exact ih ⟨st.lastRequestTime, widenInterval st.minInterval⟩ clock hdrest
    | wait d1 d2 =>
      have hds := hd d1 d2 (List.mem_cons_self _ _)
      rw [throttleRun]
      refine ⟨?_, ?_⟩
      · exact rateLimitWait_gap st (clock + d1) d2 hds.2
      · have := ih (rateLimitWait st (clock + d1) d2).1
          (rateLimitWait st (clock + d1) d2).2 hdrest
        exact this

/-- C4: for every sequence of throttle events with nonnegative clock
drifts, each `_rate_limit_wait` records the post-wait time as the new last
request time, and the gap between any two consecutive recorded request
times is at least the minimum interval in force at the time of the second
call. -/
theorem throttle_gap_invariant (st : ThrottleState) (clock : ℚ)
    (events : List ThrottleEvent) (hd : driftsNonneg events) :
    gapsOk st.lastRequestTime (throttleRun (st, clock) events).2 ∧
    (∀ s n d, ((rateLimitWait s n d).1).lastRequestTime = (rateLimitWait s n d).2) :=
  ⟨throttleRun_gapsOk events st clock hd, rateLimitWait_records⟩

theorem throttle_gap_invariant_witness :
    driftsNonneg [ThrottleEvent.wait 0 0, ThrottleEvent.widen, ThrottleEvent.wait 1 0] ∧
    (gapsOk (ThrottleState.mk 0 (1 / 2)).lastRequestTime
      (throttleRun (ThrottleState.mk 0 (1 / 2), 0)
        [ThrottleEvent.wait 0 0, ThrottleEvent.widen, ThrottleEvent.wait 1 0]).2 ∧
    (∀ s n d, ((rateLimitWait s n d).1).lastRequestTime = (rateLimitWait s n d).2)) := by
  have hd : driftsNonneg [ThrottleEvent.wait 0 0, ThrottleEvent.widen,
      ThrottleEvent.wait 1 0] := by
    intro d1 d2 hmem
    simp only [List.mem_cons, List.not_mem_nil, or_false] at hmem
    rcases hmem with h | h | h <;> cases h <;> norm_num
  exact ⟨hd, throttle_gap_invariant (ThrottleState.mk 0 (1 / 2)) 0 _ hd⟩

end Auth0Export

namespace Auth0Export

/-- C6 fails as stated on `get_user_organization_roles`: with page 0
returning 50 roles and page 1 raising, the function returns the empty
list — the `try` wraps the whole loop and its `except` branch returns
`[]`, discarding the already-fetched first page. -/
theorem orgRoles_partial_results_counterexample :
    getUserOrganizationRoles
      (fun p => if p = 0 then OrgRolesPage.page (List.range 50)
        else OrgRolesPage.raises "boom") 10 = some ([], 2) ∧
    (some (([] : List ℕ), 2) : Option (List ℕ × ℕ)) ≠ some (List.range 50, 2) := by
  constructor
  · rfl
  · simp [List.range_succ]

/-- If the user-listing fetch returns non-empty batches on pages
`j..j+k-1` and raises on page `j+k`, the loop returns the concatenation of
those batches (the `try/except` is inside the loop). -/
theorem allUsersLoop_exception {U : Type} (fetchU : ℕ → UsersPage U)
    (b : ℕ → List U) (msg : String) :
    ∀ k j fuel acc cnt, k < fuel →
      (∀ p, j ≤ p → p < j + k → fetchU p = UsersPage.page (b p) ∧ b p ≠ []) →
      fetchU (j + k) = UsersPage.raises msg →
      allUsersLoop fetchU fuel j acc cnt
        = some (acc ++ pagesConcat b j k, cnt + k + 1) := by
  intro k
  induction k with
  | zero =>
    intro j fuel acc cnt hf hb hk
    cases fuel with
    | zero => omega
    | succ n =>
      rw [Nat.add_zero] at hk
      rw [allUsersLoop, hk]
      simp [pagesConcat]
  | succ m ih =>
    intro j fuel acc cnt hf hb hk
    cases fuel with
    | zero => omega
    | succ n =>
      obtain ⟨hpage, hne⟩ := hb j (le_refl j) (by omega)
      rw [allUsersLoop, hpage]
      have hemp : (b j).isEmpty = false := by
        cases hbj : b j with
        | nil => exact absurd hbj hne
        | cons x xs => rfl
      simp only [hemp, Bool.false_eq_true, if_false]
      have hrec := ih (j + 1) n (acc ++ b j) (cnt + 1) (by omega)
        (fun p hp1 hp2 => hb p (by omega) (by omega))
        (by rw [show j + 1 + m = j + (m + 1) by omega]; exact hk)
      rw [hrec]
      simp only [pagesConcat, List.append_assoc]
      congr 2
      omega

/-- If the organization-role fetch returns full (size ≥ 50) pages on pages
`j..j+k-1` and raises on page `j+k`, the loop returns the empty list (the
`except` branch of `get_user_organization_roles` returns `[]`). -/
theorem orgRolesLoop_exception {R : Type} (fetchR : ℕ → OrgRolesPage R)
    (rb : ℕ → List R) (msg : String) :
    ∀ k j fuel acc cnt, k < fuel →
      (∀ p, j ≤ p → p < j + k → fetchR p = OrgRolesPage.page (rb p) ∧ 50 ≤ (rb p).length) →
      fetchR (j + k) = OrgRolesPage.raises msg →
      orgRolesLoop fetchR fuel j acc cnt = some ([], cnt + k + 1) := by
  intro k
  induction k with
  | zero =>
    intro j fuel acc cnt hf hb hk
    cases fuel with
    | zero => omega
    | succ n =>
      rw [Nat.add_zero] at hk
      rw [orgRolesLoop, hk]
  | succ m ih =>
    intro j fuel acc cnt hf hb hk
    cases fuel with
    | zero => omega
    | succ n =>
      obtain ⟨hpage, hlen⟩ := hb j (le_refl j) (by omega)
      rw [orgRolesLoop, hpage]
      have hnlt : ¬((rb j).length < 50) := by omega
      simp only [hnlt, if_false]
      have hrec := ih (j + 1) n (acc ++ rb j) (cnt + 1) (by omega)
        (fun p hp1 hp2 => hb p (by omega) (by omega))
        (by rw [show j + 1 + m = j + (m + 1) by omega]; exact hk)
      rw [hrec]
      congr 2
      omega

/-- C6 (amended): neither paginator raises past its boundary, but they
degrade differently.  If an exception escapes the retry layer during the
fetch of page `k` of the top-level user listing (pages `0..k-1` non-empty),
`get_all_users` returns exactly the items accumulated from pages `0..k-1`;
if an exception escapes during page `k` of the organization-role
pagination (pages `0..k-1` full), `get_user_organization_roles` returns
the empty list, discarding the items of pages `0..k-1`. -/
theorem paginator_exception_behaviour {U R : Type} (b : ℕ → List U) (rb : ℕ → List R)
    (k : ℕ) (msgU msgR : String) (fetchU : ℕ → UsersPage U) (fetchR : ℕ → OrgRolesPage R)
    (fuel : ℕ) (hfuel : k < fuel)
    (hbU : ∀ p, p < k → fetchU p = UsersPage.page (b p) ∧ b p ≠ [])
    (hkU : fetchU k = UsersPage.raises msgU)
    (hbR : ∀ p, p < k → fetchR p = OrgRolesPage.page (rb p) ∧ 50 ≤ (rb p).length)
    (hkR : fetchR k = OrgRolesPage.raises msgR) :
    getAllUsers fetchU fuel = some (pagesConcat b 0 k, k + 1) ∧
    getUserOrganizationRoles fetchR fuel = some ([], k + 1) := by
  constructor
  · have := allUsersLoop_exception fetchU b msgU k 0 fuel [] 0 hfuel
      (fun p hp1 hp2 => hbU p (by omega)) (by simpa using hkU)
    simpa [getAllUsers] using this
  · have := orgRolesLoop_exception fetchR rb msgR k 0 fuel [] 0 hfuel
      (fun p hp1 hp2 => hbR p (by omega)) (by simpa using hkR)
    simpa [getUserOrganizationRoles] using this

theorem paginator_exception_behaviour_witness :
    (1 < 10 ∧
     (∀ p, p < 1 → (fun q => if q = 0 then UsersPage.page (List.range 100)
         else UsersPage.raises "down") p
        = UsersPage.page ((fun _ => List.range 100) p) ∧ (fun _ => List.range 100) p ≠ [] ) ∧
     (fun q => if q = 0 then UsersPage.page (List.range 100)
         else UsersPage.raises "down") 1 = UsersPage.raises "down" ∧
     (∀ p, p < 1 → (fun q => if q = 0 then OrgRolesPage.page (List.range 50)
         else OrgRolesPage.raises "down") p
        = OrgRolesPage.page ((fun _ => List.range 50) p) ∧
        50 ≤ ((fun _ => List.range 50) p).length) ∧
     (fun q => if q = 0 then OrgRolesPage.page (List.range 50)
         else OrgRolesPage.raises "down") 1 = OrgRolesPage.raises "down") ∧
    (getAllUsers (fun q => if q = 0 then UsersPage.page (List.range 100)
        else UsersPage.raises "down") 10
      = some (pagesConcat (fun _ => List.range 100) 0 1, 1 + 1) ∧
     getUserOrganizationRoles (fun q => if q = 0 then OrgRolesPage.page (List.range 50)
        else OrgRolesPage.raises "down") 10
      = some (([] : List ℕ), 1 + 1)) := by
  refine ⟨⟨by norm_num, ?_, rfl, ?_, rfl⟩, ?_⟩
  · intro p hp
    have hp0 : p = 0 := by omega
    subst hp0
    exact ⟨rfl, by simp [List.range_succ]⟩
  · intro p hp
    have hp0 : p = 0 := by omega
    subst hp0
    exact ⟨rfl, by simp⟩
  · exact paginator_exception_behaviour (fun _ => List.range 100) (fun _ => List.range 50)
      1 "down" "down" _ _ 10 (by norm_num)
      (fun p hp => by
        have hp0 : p = 0 := by omega
        subst hp0
        exact ⟨rfl, by simp [List.range_succ]⟩)
      rfl
      (fun p hp => by
        have hp0 : p = 0 := by omega
        subst hp0
        exact ⟨rfl, by simp⟩)
      rfl

end Auth0Export

namespace Auth0Export

/-- C8: the Record Aggregator never raises on a sub-fetch failure — a
failing organizations fetch, global-roles fetch or per-organization role
fetch yields an empty list for that sub-fetch and aggregation continues —
and for a principal with 0 organizations it returns a Composite Record
with `total_organizations = 0`, `total_org_roles = 0` and an empty
organizations list. -/
theorem aggregator_graceful_degradation {U O R : Type} (u : U) (ts : String)
    (e1 e2 msg : String) (orgRoles : O → List R)
    (orgsCall : Except String (ListResponse O))
    (globalCall : Except String (ListResponse R))
    (fuel : ℕ) (hfuel : 1 ≤ fuel) :
    (getUserCompleteData u (Except.error e1) globalCall orgRoles ts).organizations = [] ∧
    (getUserCompleteData u (Except.error e1) globalCall orgRoles ts).total_organizations = 0 ∧
    (getUserCompleteData u orgsCall (Except.error e2) orgRoles ts).global_roles = [] ∧
    getUserOrganizationRoles (R := R) (fun _ => OrgRolesPage.raises msg) fuel
      = some ([], 1) ∧
    (getUserOrganizations orgsCall = [] →
      (getUserCompleteData u orgsCall globalCall orgRoles ts).total_organizations = 0 ∧
      (getUserCompleteData u orgsCall globalCall orgRoles ts).total_org_roles = 0 ∧
      (getUserCompleteData u orgsCall globalCall orgRoles ts).organizations = []) := by
  refine ⟨?_, ?_, ?_, ?_, ?_⟩
  · simp [getUserCompleteData, getUserOrganizations]
  · simp [getUserCompleteData, getUserOrganizations]
  · simp [getUserCompleteData, getUserRoles]
  · cases fuel with
    | zero => omega
    | succ n => rfl
  · intro h
    refine ⟨?_, ?_, ?_⟩ <;> simp [getUserCompleteData, h]

theorem aggregator_graceful_degradation_witness :
    1 ≤ 1 ∧
    ((getUserCompleteData (U := ℕ) (O := ℕ) (R := ℕ) 0 (Except.error "down")
        (Except.ok (ListResponse.dictWith [5])) (fun _ => [9]) "ts").organizations = [] ∧
     (getUserCompleteData (U := ℕ) (O := ℕ) (R := ℕ) 0 (Except.error "down")
        (Except.ok (ListResponse.dictWith [5])) (fun _ => [9]) "ts").total_organizations = 0 ∧
     (getUserCompleteData (U := ℕ) (O := ℕ) (R := ℕ) 0
        (Except.ok (ListResponse.dictWith []))
        (Except.error "down") (fun _ => [9]) "ts").global_roles = [] ∧
     getUserOrganizationRoles (R := ℕ) (fun _ => OrgRolesPage.raises "down") 1
       = some ([], 1) ∧
     (getUserOrganizations (O := ℕ) (Except.ok (ListResponse.dictWith [])) = [] →
       (getUserCompleteData (U := ℕ) (O := ℕ) (R := ℕ) 0
          (Except.ok (ListResponse.dictWith []))
          (Except.error "down") (fun _ => [9]) "ts").total_organizations = 0 ∧
       (getUserCompleteData (U := ℕ) (O := ℕ) (R := ℕ) 0
          (Except.ok (ListResponse.dictWith []))
          (Except.error "down") (fun _ => [9]) "ts").total_org_roles = 0 ∧
       (getUserCompleteData (U := ℕ) (O := ℕ) (R := ℕ) 0
          (Except.ok (ListResponse.dictWith []))
          (Except.error "down") (fun _ => [9]) "ts").organizations = [])) :=
  ⟨le_refl 1,
   aggregator_graceful_degradation 0 "ts" "down" "down" "down" (fun _ => [9])
     (Except.ok (ListResponse.dictWith [])) (Except.error "down") 1 (le_refl 1)⟩

/-- The organization-specific columns of a per-organization row copy are
exactly the four appended entries: removing them recovers the user's
shared columns. -/
theorem nonOrgColumns_rowForOrg (ud : List (String × Option String))
    (org : OrgRecord) (names : List String) :
    nonOrgColumns (rowForOrg ud org names) = nonOrgColumns ud := by
  simp only [nonOrgColumns, rowForOrg, List.filter_append]
  have h4 : List.filter (fun p => !(orgColumnNames.contains p.1))
      [("Organization ID", org.id), ("Organization Name", org.name),
       ("Organization Display Name", org.display_name),
       ("Organization Roles", some (joinNames names))] = [] := rfl
  rw [h4, List.append_nil]

/-- C9: for one principal with exactly 2 organizations, each carrying one
organization-scoped role, and one global role, the Composite Record's
metadata has `total_organizations = 2`, `total_global_roles = 1` and
`total_org_roles = 2`, and the Excel export emits exactly 2 rows for that
principal, identical in all columns except the four organization-specific
columns. -/
theorem composite_counts_and_excel_rows {U O R : Type} (u : U) (ts : String)
    (o1 o2 : O) (r1 r2 g : R) (roleFn : O → List R)
    (h1 : roleFn o1 = [r1]) (h2 : roleFn o2 = [r2])
    (ud : List (String × Option String)) (org1 org2 : OrgRecord)
    (rn : OrgRecord → List String) :
    (getUserCompleteData u (Except.ok (ListResponse.dictWith [o1, o2]))
        (Except.ok (ListResponse.dictWith [g])) roleFn ts).total_organizations = 2 ∧
    (getUserCompleteData u (Except.ok (ListResponse.dictWith [o1, o2]))
        (Except.ok (ListResponse.dictWith [g])) roleFn ts).total_global_roles = 1 ∧
    (getUserCompleteData u (Except.ok (ListResponse.dictWith [o1, o2]))
        (Except.ok (ListResponse.dictWith [g])) roleFn ts).total_org_roles = 2 ∧
    (excelRowsForUser ud [org1, org2] rn).length = 2 ∧
    ∀ row ∈ excelRowsForUser ud [org1, org2] rn,
      nonOrgColumns row = nonOrgColumns ud := by
  refine ⟨?_, ?_, ?_, ?_, ?_⟩
  · simp [getUserCompleteData, getUserOrganizations]
  · simp [getUserCompleteData, getUserRoles]
  · simp [getUserCompleteData, getUserOrganizations, h1, h2]
  · simp [excelRowsForUser]
  · intro row hrow
    simp only [excelRowsForUser, List.isEmpty_cons, Bool.false_eq_true, if_false,
      List.map_cons, List.map_nil, List.mem_cons, List.not_mem_nil, or_false] at hrow
    rcases hrow with h | h <;> subst h <;> exact nonOrgColumns_rowForOrg ud _ _

theorem composite_counts_and_excel_rows_witness :
    ((fun o => if o = 1 then [10] else [20]) 1 = [10] ∧
     (fun o => if o = 1 then [10] else [20]) 2 = [20]) ∧
    ((getUserCompleteData (U := ℕ) 0 (Except.ok (ListResponse.dictWith [1, 2]))
        (Except.ok (ListResponse.dictWith [30]))
        (fun o => if o = 1 then [10] else [20]) "ts").total_organizations = 2 ∧
     (getUserCompleteData (U := ℕ) 0 (Except.ok (ListResponse.dictWith [1, 2]))
        (Except.ok (ListResponse.dictWith [30]))
        (fun o => if o = 1 then [10] else [20]) "ts").total_global_roles = 1 ∧
     (getUserCompleteData (U := ℕ) 0 (Except.ok (ListResponse.dictWith [1, 2]))
        (Except.ok (ListResponse.dictWith [30]))
        (fun o => if o = 1 then [10] else [20]) "ts").total_org_roles = 2 ∧
     (excelRowsForUser [("User ID", some "u1"), ("Email", some "e")]
        [OrgRecord.mk (some "o1") (some "n1") (some "d1"),
         OrgRecord.mk (some "o2") (some "n2") (some "d2")]
        (fun _ => ["admin"])).length = 2 ∧
     ∀ row ∈ excelRowsForUser [("User ID", some "u1"), ("Email", some "e")]
        [OrgRecord.mk (some "o1") (some "n1") (some "d1"),
         OrgRecord.mk (some "o2") (some "n2") (some "d2")]
        (fun _ => ["admin"]),
       nonOrgColumns row
         = nonOrgColumns [("User ID", some "u1"), ("Email", some "e")]) :=
  ⟨⟨by simp, by simp⟩,
   composite_counts_and_excel_rows 0 "ts" 1 2 10 20 30
     (fun o => if o = 1 then [10] else [20]) (by simp) (by simp)
     [("User ID", some "u1"), ("Email", some "e")]
     (OrgRecord.mk (some "o1") (some "n1") (some "d1"))
     (OrgRecord.mk (some "o2") (some "n2") (some "d2"))
     (fun _ => ["admin"])⟩

end Auth0Export
